import Mathlib

/-!
Shallow embedding of the alerting and correlation subsystem of the
data-crawler repository (src/alerts/alert_system.py,
src/analysis/correlation_analyzer.py, src/storage/data_manager.py).

Timestamps are modelled as rationals (days since an arbitrary epoch, so that
truncation to a calendar date is `Int.floor`); prices/yields/rates are
rationals (Python floats abstracted to exact arithmetic).  SQL NULL becomes
`Option`.  Python exceptions become `Except` values, and the engine's
`try/except` blocks become explicit matches on those values.
-/

namespace DataCrawler

/-! ## Generic list helpers used by the embedding -/

/-- Stable insertion used to model `df.sort_values('timestamp')`: an element is
placed after all existing elements with a key `≤` its own, so rows with equal
timestamps keep their original relative order. -/
def insertByKey {α : Type} (key : α → ℚ) (a : α) : List α → List α
  | [] => [a]
  | b :: l => if key a < key b then a :: b :: l else b :: insertByKey key a l

/-- Stable sort by a rational key (ascending), modelling `sort_values`. -/
def sortByKey {α : Type} (key : α → ℚ) (l : List α) : List α :=
  l.foldr (insertByKey key) []

/-- First-occurrence deduplication, modelling pandas `Series.unique()` (which
keeps the order of first appearance). -/
def firstOccurAux {α : Type} [DecidableEq α] (acc : List α) : List α → List α
  | [] => acc.reverse
  | a :: l => if a ∈ acc then firstOccurAux acc l else firstOccurAux (a :: acc) l

def firstOccur {α : Type} [DecidableEq α] (l : List α) : List α :=
  firstOccurAux [] l

/-- Python's `round(x, 1)` modelled on exact rationals (round to one decimal
place; ties, which Python resolves to even on binary floats, are resolved by
Mathlib's `round`). -/
def round1 (q : ℚ) : ℚ := (round (q * 10) : ℤ) / 10

/-! ## Snapshot rows (src/crawler/schema.py, src/storage/setup.py)

Fields not read by the alert checkers under verification are omitted. -/

/-- One row of the `gpu_pricing` table (`price REAL NOT NULL`). -/
structure GPURow where
  ts : ℚ
  gpu_model : String
  price : ℚ
deriving DecidableEq, Repr

/-- One row of the `treasury_yields` table (`yield_10y REAL`, nullable). -/
structure TreasuryRow where
  ts : ℚ
  yield_10y : Option ℚ
deriving DecidableEq, Repr

/-- One row of the `energy_futures` table (`natural_gas_price REAL NOT NULL`). -/
structure EnergyRow where
  ts : ℚ
  natural_gas_price : ℚ
deriving DecidableEq, Repr

/-- One row of the `interest_rates` table (`fed_funds_rate REAL NOT NULL`). -/
structure RateRow where
  ts : ℚ
  fed_funds_rate : ℚ
deriving DecidableEq, Repr

/-! ## Alert condition checkers (src/alerts/alert_system.py lines 103-216)

Each checker takes the already-fetched window of snapshot rows (the
`data_manager.get_*` call) as its argument. -/

/-- Payload returned by `_check_gpu_price_spike`. -/
structure GpuSpikePayload where
  change : ℚ
  period : ℕ
  price : ℚ
  gpu_model : String
deriving DecidableEq, Repr

/-- The body of the per-model loop of `_check_gpu_price_spike`: given the
timestamp-sorted window, look at the latest two rows of one GPU model;
`continue` in the Python loop becomes `none`. -/
def gpuModelSpike (sorted : List GPURow) (m : String) : Option GpuSpikePayload :=
  match (sorted.filter (fun r => r.gpu_model = m)).reverse with
  | recent :: prev :: _ =>
    if prev.price > 0 then
      let change := (recent.price - prev.price) / prev.price * 100
      if change > 15 then
        some ⟨round1 change, 24, recent.price, m⟩
      else none
    else none
  | _ => none

/-- Iteration order of the `for gpu_model in df['gpu_model'].unique()` loop:
first occurrence order over the timestamp-sorted frame. -/
def gpuModelOrder (rows : List GPURow) : List String :=
  firstOccur ((sortByKey (fun r => r.ts) rows).map (fun r => r.gpu_model))

/-- `AlertSystem._check_gpu_price_spike` (lines 103-139): empty window returns
`None`; otherwise the rows are sorted by timestamp and the models scanned in
first-occurrence order, returning the payload of the first model whose latest
two points show a >15% increase from a positive previous price. -/
def check_gpu_price_spike (rows : List GPURow) : Option GpuSpikePayload :=
  if rows.isEmpty then none
  else
    let sorted := sortByKey (fun r => r.ts) rows
    (gpuModelOrder rows).findSome? (gpuModelSpike sorted)

/-- Payload returned by `_check_treasury_yield_spike`. -/
structure TreasuryPayload where
  change : ℚ
  current : ℚ
deriving DecidableEq, Repr

/-- `AlertSystem._check_treasury_yield_spike` (lines 141-165).  The Python
guard `if current_yield and previous_yield:` tests float truthiness: a NULL
(pandas NaN propagates to a NaN change whose `abs > 20` is false) or a `0.0`
yield means no trigger, which the embedding renders as the `some`/`≠ 0`
requirements. -/
def check_treasury_yield_spike (rows : List TreasuryRow) : Option TreasuryPayload :=
  if rows.isEmpty || rows.length < 2 then none
  else
    match (sortByKey (fun r => r.ts) rows).reverse with
    | cur :: prev :: _ =>
      match cur.yield_10y, prev.yield_10y with
      | some c, some p =>
        if c ≠ 0 ∧ p ≠ 0 then
          let bps := (c - p) * 100
          if |bps| > 20 then some ⟨round1 bps, c⟩ else none
        else none
      | _, _ => none
    | _ => none

/-- Payload returned by `_check_natural_gas_spike`. -/
structure GasPayload where
  change : ℚ
  price : ℚ
deriving DecidableEq, Repr

/-- `AlertSystem._check_natural_gas_spike` (lines 167-191).  The guard
`if current_price and previous_price and previous_price > 0:` is float
truthiness plus positivity of the denominator. -/
def check_natural_gas_spike (rows : List EnergyRow) : Option GasPayload :=
  if rows.isEmpty || rows.length < 2 then none
  else
    match (sortByKey (fun r => r.ts) rows).reverse with
    | cur :: prev :: _ =>
      if cur.natural_gas_price ≠ 0 ∧ prev.natural_gas_price ≠ 0 ∧
          prev.natural_gas_price > 0 then
        let change :=
          (cur.natural_gas_price - prev.natural_gas_price) /
            prev.natural_gas_price * 100
        if |change| > 10 then some ⟨round1 change, cur.natural_gas_price⟩ else none
      else none
    | _ => none

/-- Payload returned by `_check_fed_rate_change`. -/
structure RatePayload where
  rate : ℚ
  change : ℚ
deriving DecidableEq, Repr

/-- `AlertSystem._check_fed_rate_change` (lines 193-216): over the last 7 days,
any difference between the latest two rates triggers. -/
def check_fed_rate_change (rows : List RateRow) : Option RatePayload :=
  if rows.isEmpty then none
  else
    let s := sortByKey (fun r => r.ts) rows
    if 2 ≤ s.length then
      match s.reverse with
      | cur :: prev :: _ =>
        if cur.fed_funds_rate ≠ prev.fed_funds_rate then
          some ⟨cur.fed_funds_rate, cur.fed_funds_rate - prev.fed_funds_rate⟩
        else none
      | _ => none
    else none

/-! ## Specification predicates for the GPU price spike rule -/

/-- Boolean form of the per-model trigger condition of `_check_gpu_price_spike`:
the latest two chronological points of the model show a >15% increase from a
positive previous price. -/
def gpuQualifiesB (sorted : List GPURow) (m : String) : Bool :=
  match (sorted.filter (fun r => r.gpu_model = m)).reverse with
  | recent :: prev :: _ =>
    decide (prev.price > 0 ∧ (recent.price - prev.price) / prev.price * 100 > 15)
  | _ => false

/-- Propositional form of the per-model trigger condition. -/
def GpuQualifies (sorted : List GPURow) (m : String) : Prop :=
  ∃ recent prev rest,
    (sorted.filter (fun r => r.gpu_model = m)).reverse = recent :: prev :: rest ∧
    prev.price > 0 ∧ (recent.price - prev.price) / prev.price * 100 > 15

/-! ## Store read operations (src/storage/data_manager.py)

Each `get_*` method issues
SELECT * FROM t WHERE timestamp >= datetime('now','-N days') ORDER BY timestamp DESC;
the embedding filters the table to the window and sorts by descending
timestamp. -/

/-- The shared SQL shape of the windowed read queries. -/
def sqlWindowDesc {α : Type} (ts : α → ℚ) (now : ℚ) (days_back : ℕ) (tbl : List α) :
    List α :=
  sortByKey (fun r => -(ts r)) (tbl.filter (fun r => now - days_back ≤ ts r))

/-- DataManager.get_gpu_pricing (lines 56-71, without the optional source filter). -/
def get_gpu_pricing (tbl : List GPURow) (now : ℚ) (days_back : ℕ) : List GPURow :=
  sqlWindowDesc (fun r => r.ts) now days_back tbl

/-- DataManager.get_treasury_yields (lines 92-101). -/
def get_treasury_yields (tbl : List TreasuryRow) (now : ℚ) (days_back : ℕ) :
    List TreasuryRow :=
  sqlWindowDesc (fun r => r.ts) now days_back tbl

/-- DataManager.get_energy_futures (lines 122-131). -/
def get_energy_futures (tbl : List EnergyRow) (now : ℚ) (days_back : ℕ) : List EnergyRow :=
  sqlWindowDesc (fun r => r.ts) now days_back tbl

/-- DataManager.get_interest_rates (lines 228-237). -/
def get_interest_rates (tbl : List RateRow) (now : ℚ) (days_back : ℕ) : List RateRow :=
  sqlWindowDesc (fun r => r.ts) now days_back tbl

/-! ## The rule engine (src/alerts/alert_system.py lines 19-26, 286-321)

A rule's `condition` is a Python callable that may raise (modelled as
`Except String`), and `message_template.format(**result)` may raise a
`KeyError` (modelled as the rule's `render` returning `Except.error`).  The
Store's `create_alert` may raise too; the store state carries, per alert row,
whether the insert raises (`persistErr`).  The per-rule `try/except` of
`check_all_rules` becomes explicit matching on those `Except` values, so the
embedded engine is a total function: nothing escapes a cycle. -/

/-- An `AlertRule` together with the behaviours of its Python callables. -/
structure RuleM (δ α : Type) where
  name : String
  severity : String
  condition : δ → Except String (Option α)
  render : α → Except String String
  lastTriggered : Option ℚ

/-- A triggered alert event as assembled in `check_all_rules` (lines 297-303). -/
structure AlertEv (α : Type) where
  rule_name : String
  severity : String
  message : String
  timestamp : ℚ
  data : α
deriving DecidableEq

/-- A row of the `alerts` table as written by `DataManager.create_alert`. -/
structure PersistedAlert where
  alert_type : String
  message : String
  severity : String
  data_source : String
deriving DecidableEq, Repr

/-- The Store as seen by the engine: the alert rows persisted so far, and which
`create_alert` inserts raise. -/
structure StoreSt where
  persisted : List PersistedAlert
  persistErr : PersistedAlert → Option String

/-- The body of the per-rule `try` block of `check_all_rules`: evaluate the
condition; on a non-null result render the template, build the alert event
(appended to the returned list BEFORE the Store write), persist via
`create_alert`, and set `last_triggered`.  Any raise is caught by the
per-rule `except`, leaving the already-computed parts in place. -/
def checkRule {δ α : Type} (d : δ) (pe : PersistedAlert → Option String) (now : ℚ)
    (r : RuleM δ α) : Option (AlertEv α) × Option PersistedAlert × RuleM δ α :=
  match r.condition d with
  | .error _ => (none, none, r)
  | .ok none => (none, none, r)
  | .ok (some res) =>
    match r.render res with
    | .error _ => (none, none, r)
    | .ok msg =>
      match pe ⟨r.name, msg, r.severity, "alert_system"⟩ with
      | some _ => (some ⟨r.name, r.severity, msg, now, res⟩, none, r)
      | none => (some ⟨r.name, r.severity, msg, now, res⟩,
                 some ⟨r.name, msg, r.severity, "alert_system"⟩,
                 { r with lastTriggered := some now })

/-- `AlertSystem.check_all_rules` (lines 286-321): iterate over the registered
rules in order; the result is (triggered alert list, final store, final rules,
trace of condition invocations in order). -/
def check_all_rules {δ α : Type} (d : δ) (now : ℚ) :
    List (RuleM δ α) → StoreSt →
      List (AlertEv α) × StoreSt × List (RuleM δ α) × List String
  | [], st => ([], st, [], [])
  | r :: rs, st =>
    let step := checkRule d st.persistErr now r
    let st' : StoreSt :=
      match step.2.1 with
      | some row => ⟨st.persisted ++ [row], st.persistErr⟩
      | none => st
    let tail := check_all_rules d now rs st'
    (step.1.toList ++ tail.1, tail.2.1, step.2.2 :: tail.2.2.1, r.name :: tail.2.2.2)

/-- The alert event a single rule contributes to the returned list, regardless
of every other rule and of whether `create_alert` raises. -/
def triggeredOutcome {δ α : Type} (d : δ) (now : ℚ) (r : RuleM δ α) :
    Option (AlertEv α) :=
  match r.condition d with
  | .ok (some res) =>
    match r.render res with
    | .ok msg => some ⟨r.name, r.severity, msg, now, res⟩
    | .error _ => none
  | _ => none

/-- The alert row a single rule persists (none when `create_alert` raises). -/
def persistedOutcome {δ α : Type} (d : δ) (pe : PersistedAlert → Option String)
    (r : RuleM δ α) : Option PersistedAlert :=
  match r.condition d with
  | .ok (some res) =>
    match r.render res with
    | .ok msg =>
      match pe ⟨r.name, msg, r.severity, "alert_system"⟩ with
      | some _ => none
      | none => some ⟨r.name, msg, r.severity, "alert_system"⟩
    | .error _ => none
  | _ => none

/-- How a single rule's `last_triggered` comes out of the cycle. -/
def updatedRule {δ α : Type} (d : δ) (pe : PersistedAlert → Option String) (now : ℚ)
    (r : RuleM δ α) : RuleM δ α :=
  match r.condition d with
  | .ok (some res) =>
    match r.render res with
    | .ok msg =>
      match pe ⟨r.name, msg, r.severity, "alert_system"⟩ with
      | some _ => r
      | none => { r with lastTriggered := some now }
    | .error _ => r
  | _ => r

/-! ## The notification dispatcher (src/alerts/alert_system.py lines 323-332)

`send_notifications` returns the call log: one entry per channel invocation,
recording the batch passed to the channel and the error it raised (caught by
the per-channel `except`), if any. -/

/-- The `for channel in self.notification_channels` loop with its per-channel
`try/except`. -/
def dispatchGo {α : Type} (alerts : List α) :
    List (List α → Except String Unit) → List (List α × Option String)
  | [] => []
  | c :: cs =>
    (alerts, match c alerts with | .error e => some e | .ok _ => none)
      :: dispatchGo alerts cs

/-- `AlertSystem.send_notifications` (lines 323-332): no-op on an empty alert
list, otherwise every channel is called once with the full batch. -/
def send_notifications {α : Type} (channels : List (List α → Except String Unit))
    (alerts : List α) : List (List α × Option String) :=
  if alerts.isEmpty then [] else dispatchGo alerts channels

/-- Sample rule whose condition raises (for concrete witnesses). -/
def unitFailRule : RuleM Unit Unit :=
  ⟨"fail_rule", "high", fun _ => .error "boom", fun _ => .ok "msg", none⟩

/-- Sample rule that triggers and renders successfully. -/
def unitOkRule : RuleM Unit Unit :=
  ⟨"ok_rule", "low", fun _ => .ok (some ()), fun _ => .ok "ok message", none⟩

/-- Sample store whose `create_alert` always succeeds. -/
def emptyStore : StoreSt := ⟨[], fun _ => none⟩

/-- Sample store whose `create_alert` always raises. -/
def failingStore : StoreSt := ⟨[], fun _ => some "db down"⟩

/-! ## The correlation engine (src/analysis/correlation_analyzer.py)

Series are aligned lists of `Option ℚ` (pandas columns with NaN as `none`). -/

/-- The `pd.DataFrame({'x': x, 'y': y}).dropna()` step of
`calculate_correlation_with_significance` (line 96): keep the jointly
non-missing pairs. -/
def dropna (x y : List (Option ℚ)) : List (ℚ × ℚ) :=
  (x.zip y).filterMap (fun p =>
    match p with
    | (some a, some b) => some (a, b)
    | _ => none)

/-- `CorrelationAnalyzer.calculate_correlation_with_significance` (lines
92-102).  `pearsonr` stands for the external `scipy.stats.pearsonr`, which
returns the Pearson coefficient and the two-tailed p-value of the valid
pairs. -/
def calculate_correlation_with_significance
    (pearsonr : List (ℚ × ℚ) → ℚ × ℚ) (x y : List (Option ℚ)) : ℚ × ℚ :=
  if (dropna x y).length < 3 then (0, 1) else pearsonr (dropna x y)

/-- `CorrelationAnalyzer._interpret_correlation_strength` (lines 130-139),
applied to `abs(correlation)` by its caller. -/
def interpret_correlation_strength (abs_correlation : ℚ) : String :=
  if abs_correlation ≥ 7/10 then "strong"
  else if abs_correlation ≥ 3/10 then "moderate"
  else if abs_correlation ≥ 1/10 then "weak"
  else "very_weak"

/-- The significance classification of `analyze_gpu_price_correlations`
(line 124): significant iff p_value < 0.05. -/
def significanceOf (p_value : ℚ) : String :=
  if p_value < 5/100 then "significant" else "not_significant"

/-- Mean of a list of rationals (pandas mean). -/
def listMean (l : List ℚ) : ℚ := l.sum / l.length

/-- Centered cross sum Σ (xᵢ−x̄)(yᵢ−ȳ) of the paired observations. -/
def sxy (ps : List (ℚ × ℚ)) : ℚ :=
  (ps.map (fun p => (p.1 - listMean (ps.map (fun q => q.1)))
      * (p.2 - listMean (ps.map (fun q => q.2))))).sum

/-- Centered square sum Σ (xᵢ−x̄)² of the first components. -/
def sxx (ps : List (ℚ × ℚ)) : ℚ :=
  (ps.map (fun p => (p.1 - listMean (ps.map (fun q => q.1)))
      * (p.1 - listMean (ps.map (fun q => q.1))))).sum

/-- Centered square sum Σ (yᵢ−ȳ)² of the second components. -/
def syy (ps : List (ℚ × ℚ)) : ℚ :=
  (ps.map (fun p => (p.2 - listMean (ps.map (fun q => q.2)))
      * (p.2 - listMean (ps.map (fun q => q.2))))).sum

/-- The Pearson correlation coefficient computed by `DataFrame.corr()` over the
jointly non-missing rows of a column pair:
Σ(x−x̄)(y−ȳ) / √(Σ(x−x̄)² Σ(y−ȳ)²). -/
noncomputable def pearsonR (ps : List (ℚ × ℚ)) : ℝ :=
  (sxy ps : ℝ) / Real.sqrt ((sxx ps : ℝ) * (syy ps : ℝ))

/-- `CorrelationAnalyzer.calculate_correlations` (lines 70-90): on fewer than 2
numeric columns return the empty output; otherwise for every ordered pair of
columns with distinct names emit the pairwise Pearson coefficient (pandas
`.corr()` uses the pairwise complete observations). -/
noncomputable def calculate_correlations
    (cols : List (String × List (Option ℚ))) : List (String × String × ℝ) :=
  if cols.length < 2 then []
  else cols.flatMap (fun c1 =>
    cols.filterMap (fun c2 =>
      if c1.1 ≠ c2.1 then some (c1.1, c2.1, pearsonR (dropna c1.2 c2.2)) else none))

/-! ## The unified time-series builder
(`CorrelationAnalyzer.prepare_time_series_data`, lines 18-68)

Each indicator source contributes one numeric column; a source is a list of
raw rows (timestamp, value).  The pipeline mirrors the pandas code: truncate
timestamps to calendar dates (`dt.date`, here `Int.floor` of a day-scaled
timestamp), aggregate same-day rows by mean (`groupby('date').mean()`), skip
empty frames, outer-merge all daily tables on date, sort ascending by date,
and forward-fill (`fillna(method='ffill')`).  The energy frame's two columns
behave as two single-column sources with identical timestamps. -/

/-- Truncation of a timestamp (in days) to its calendar date (`dt.date`). -/
def dateOf (ts : ℚ) : ℤ := ⌊ts⌋

/-- Insertion into a strictly-sorted date list, dropping duplicates. -/
def insertDate (d : ℤ) : List ℤ → List ℤ
  | [] => [d]
  | e :: l =>
    if d < e then d :: e :: l
    else if d = e then e :: l
    else e :: insertDate d l

/-- The sorted set of dates of a date list (the index produced by the outer
merges followed by `sort_values('date')`). -/
def sortedDates (ds : List ℤ) : List ℤ := ds.foldr insertDate []

/-- The dates (with multiplicity) at which a source has rows. -/
def srcDatesList (src : List (ℚ × ℚ)) : List ℤ := src.map (fun r => dateOf r.1)

/-- The values a source contributes on one calendar date. -/
def valuesAt (src : List (ℚ × ℚ)) (d : ℤ) : List ℚ :=
  (src.filter (fun r => dateOf r.1 = d)).map (fun r => r.2)

/-- The same-day arithmetic mean of a source on one date. -/
def meanAt (src : List (ℚ × ℚ)) (d : ℤ) : ℚ := listMean (valuesAt src d)

/-- The daily table of a source: `some` mean where the source has rows, `none`
elsewhere (the NaN the outer merge introduces). -/
def dailyMean (src : List (ℚ × ℚ)) (d : ℤ) : Option ℚ :=
  if (valuesAt src d).isEmpty then none else some (meanAt src d)

/-- The sources that survive the `if not df.empty` guards. -/
def activeSources (sources : List (List (ℚ × ℚ))) : List (List (ℚ × ℚ)) :=
  sources.filter (fun s => ¬ s.isEmpty)

/-- The unified date index: a date present in any (non-empty) source. -/
def unifiedDates (sources : List (List (ℚ × ℚ))) : List ℤ :=
  sortedDates ((activeSources sources).flatMap srcDatesList)

/-- One pre-fill row of the merged table. -/
def rawRow (actives : List (List (ℚ × ℚ))) (d : ℤ) : List (Option ℚ) :=
  actives.map (fun s => dailyMean s d)

/-- `fillna(method='ffill')` down the rows, column by column: `carry` is the
vector of last known values per column. -/
def ffillGo (carry : List (Option ℚ)) :
    List (ℤ × List (Option ℚ)) → List (ℤ × List (Option ℚ))
  | [] => []
  | (d, row) :: rest =>
    let row' := List.zipWith
      (fun cur c => match cur with | some v => some v | none => c) row carry
    (d, row') :: ffillGo row' rest

/-- `CorrelationAnalyzer.prepare_time_series_data` (lines 18-68). -/
def prepare_time_series_data (sources : List (List (ℚ × ℚ))) :
    List (ℤ × List (Option ℚ)) :=
  ffillGo ((activeSources sources).map (fun _ => none))
    ((unifiedDates sources).map (fun d => (d, rawRow (activeSources sources) d)))

/-- Maximum of a date list. -/
def maxDate : List ℤ → Option ℤ
  | [] => none
  | e :: l =>
    match maxDate l with
    | none => some e
    | some m => some (max e m)

/-- The most recent date ≤ d at which a source has data (the date whose value
forward-fill propagates into the row of date d; `none` for a leading gap). -/
def latestDataDate (src : List (ℚ × ℚ)) (d : ℤ) : Option ℤ :=
  maxDate ((srcDatesList src).filter (fun e => e ≤ d))

/-! ## Helper lemmas about the sorting and scanning combinators -/

theorem insertByKey_perm {α : Type} (key : α → ℚ) (a : α) (l : List α) :
    List.Perm (insertByKey key a l) (a :: l) := by
  induction l with
  | nil => exact List.Perm.refl _
  | cons b l ih =>
    by_cases h : key a < key b
    · simp [insertByKey, h]
    · simp only [insertByKey, if_neg h]
      exact (ih.cons b).trans (List.Perm.swap a b l)

theorem sortByKey_perm {α : Type} (key : α → ℚ) (l : List α) :
    List.Perm (sortByKey key l) l := by
  induction l with
  | nil => exact List.Perm.refl _
  | cons a l ih =>
    exact (insertByKey_perm key a (sortByKey key l)).trans (ih.cons a)

theorem sortByKey_length {α : Type} (key : α → ℚ) (l : List α) :
    (sortByKey key l).length = l.length :=
  (sortByKey_perm key l).length_eq

theorem sortByKey_filter_length {α : Type} (key : α → ℚ) (p : α → Bool) (l : List α) :
    ((sortByKey key l).filter p).length = (l.filter p).length :=
  ((sortByKey_perm key l).filter p).length_eq

theorem insertByKey_pairwise {α : Type} (key : α → ℚ) (a : α) (l : List α)
    (h : l.Pairwise (fun x y => key x ≤ key y)) :
    (insertByKey key a l).Pairwise (fun x y => key x ≤ key y) := by
  induction l with
  | nil => simp [insertByKey]
  | cons b l ih =>
    rcases List.pairwise_cons.mp h with ⟨hb, hl⟩
    by_cases hab : key a < key b
    · simp only [insertByKey, if_pos hab]
      refine List.pairwise_cons.mpr ⟨?_, h⟩
      intro y hy
      rcases List.mem_cons.mp hy with rfl | hy
      · exact le_of_lt hab
      · exact le_trans (le_of_lt hab) (hb y hy)
    · simp only [insertByKey, if_neg hab]
      refine List.pairwise_cons.mpr ⟨?_, ih hl⟩
      intro y hy
      rcases List.mem_cons.mp ((insertByKey_perm key a l).mem_iff.mp hy) with rfl | hy
      · exact le_of_not_lt hab
      · exact hb y hy

theorem sortByKey_pairwise {α : Type} (key : α → ℚ) (l : List α) :
    (sortByKey key l).Pairwise (fun x y => key x ≤ key y) := by
  induction l with
  | nil => simp [sortByKey]
  | cons a l ih => exact insertByKey_pairwise key a (sortByKey key l) ih

theorem findSome?_eq_none_of {α β : Type} (f : α → Option β) (l : List α)
    (h : ∀ a ∈ l, f a = none) : l.findSome? f = none := by
  induction l with
  | nil => rfl
  | cons a l ih =>
    rw [List.findSome?_cons, h a (List.mem_cons_self a l)]
    exact ih fun x hx => h x (List.mem_cons_of_mem a hx)

theorem findSome?_isSome_iff {α β : Type} (f : α → Option β) (l : List α) :
    (l.findSome? f).isSome = true ↔ ∃ a ∈ l, (f a).isSome = true := by
  induction l with
  | nil => simp
  | cons a l ih =>
    rw [List.findSome?_cons]
    cases h : f a with
    | some b => simp [h]
    | none => simp [h, ih]

theorem findSome?_eq_some_find? {α β : Type} (f : α → Option β) (l : List α) (b : β)
    (h : l.findSome? f = some b) :
    ∃ a, l.find? (fun x => (f x).isSome) = some a ∧ f a = some b := by
  induction l with
  | nil => simp [List.findSome?] at h
  | cons a l ih =>
    rw [List.findSome?_cons] at h
    cases hfa : f a with
    | some c =>
      rw [hfa] at h
      refine ⟨a, ?_, ?_⟩
      · exact List.find?_cons_of_pos _ (by simp [hfa])
      · rw [hfa]; exact h
    | none =>
      rw [hfa] at h
      obtain ⟨x, hx, hfx⟩ := ih h
      refine ⟨x, ?_, hfx⟩
      rw [List.find?_cons_of_neg _ (by simp [hfa])]
      exact hx

theorem gpuModelSpike_isSome (sorted : List GPURow) (m : String) :
    (gpuModelSpike sorted m).isSome = gpuQualifiesB sorted m := by
  unfold gpuModelSpike gpuQualifiesB
  cases h : (sorted.filter (fun r => r.gpu_model = m)).reverse with
  | nil => rfl
  | cons recent tail =>
    cases tail with
    | nil => rfl
    | cons prev rest =>
      by_cases h1 : prev.price > 0
      · by_cases h2 : (recent.price - prev.price) / prev.price * 100 > 15
        · simp [h1, h2]
        · simp [h1, h2]
      · simp [h1]

theorem gpuQualifiesB_iff (sorted : List GPURow) (m : String) :
    gpuQualifiesB sorted m = true ↔ GpuQualifies sorted m := by
  unfold gpuQualifiesB GpuQualifies
  cases h : (sorted.filter (fun r => r.gpu_model = m)).reverse with
  | nil => simp [h]
  | cons recent tail =>
    cases tail with
    | nil => simp [h]
    | cons prev rest =>
      simp only [h, decide_eq_true_eq]
      constructor
      · rintro ⟨h1, h2⟩
        exact ⟨recent, prev, rest, rfl, h1, h2⟩
      · rintro ⟨r', p', rest', heq, h1, h2⟩
        cases heq
        exact ⟨h1, h2⟩

theorem gpuModelSpike_eq_some (sorted : List GPURow) (m : String) (pl : GpuSpikePayload)
    (h : gpuModelSpike sorted m = some pl) :
    ∃ recent prev rest,
      (sorted.filter (fun r => r.gpu_model = m)).reverse = recent :: prev :: rest ∧
      prev.price > 0 ∧ (recent.price - prev.price) / prev.price * 100 > 15 ∧
      pl = ⟨round1 ((recent.price - prev.price) / prev.price * 100), 24, recent.price, m⟩ := by
  unfold gpuModelSpike at h
  cases heq : (sorted.filter (fun r => r.gpu_model = m)).reverse with
  | nil => rw [heq] at h; exact absurd h (by simp)
  | cons recent tail =>
    cases tail with
    | nil => rw [heq] at h; exact absurd h (by simp)
    | cons prev rest =>
      rw [heq] at h
      by_cases h1 : prev.price > 0
      · by_cases h2 : (recent.price - prev.price) / prev.price * 100 > 15
        · simp only [h1, h2, if_true, if_pos] at h
          refine ⟨recent, prev, rest, rfl, h1, h2, ?_⟩
          simp only [if_pos h1, if_pos h2, Option.some.injEq] at h
          exact h.symm
        · simp [h1, h2] at h
      · simp [h1] at h

theorem gpuModelSpike_short (sorted : List GPURow) (m : String)
    (h : (sorted.filter (fun r => r.gpu_model = m)).length < 2) :
    gpuModelSpike sorted m = none := by
  unfold gpuModelSpike
  cases heq : (sorted.filter (fun r => r.gpu_model = m)).reverse with
  | nil => rfl
  | cons recent tail =>
    cases tail with
    | nil => rfl
    | cons prev rest =>
      exfalso
      have hlen : (sorted.filter (fun r => r.gpu_model = m)).length = rest.length + 2 := by
        have := congrArg List.length heq
        simpa using this
      omega

theorem sqlWindowDesc_spec {α : Type} (ts : α → ℚ) (now : ℚ) (days : ℕ) (tbl : List α) :
    List.Pairwise (fun a b => ts b ≤ ts a) (sqlWindowDesc ts now days tbl) ∧
    ∀ r, r ∈ sqlWindowDesc ts now days tbl ↔ r ∈ tbl ∧ now - days ≤ ts r := by
  constructor
  · exact (sortByKey_pairwise (fun r => -(ts r)) _).imp (fun h => by
      simpa using h)
  · intro r
    unfold sqlWindowDesc
    rw [(sortByKey_perm _ _).mem_iff, List.mem_filter]
    simp

/-! ## Claim theorems for the rule checkers -/

/-- C6: every windowed rule (gpu_price_spike per model, treasury_yield_spike,
natural_gas_spike, fed_rate_change) returns no trigger — and, being a total
function, cannot raise — whenever its window holds fewer than 2 data points. -/
theorem short_window_no_trigger :
    (∀ rows : List GPURow,
        (∀ m : String, (rows.filter (fun r => r.gpu_model = m)).length < 2) →
        check_gpu_price_spike rows = none) ∧
    (∀ rows : List TreasuryRow, rows.length < 2 → check_treasury_yield_spike rows = none) ∧
    (∀ rows : List EnergyRow, rows.length < 2 → check_natural_gas_spike rows = none) ∧
    (∀ rows : List RateRow, rows.length < 2 → check_fed_rate_change rows = none) := by
  refine ⟨?_, ?_, ?_, ?_⟩
  · intro rows h
    unfold check_gpu_price_spike
    by_cases hE : rows.isEmpty
    · simp [hE]
    · simp only [hE, Bool.false_eq_true, if_false, if_neg]
      refine findSome?_eq_none_of _ _ fun m _ => ?_
      refine gpuModelSpike_short _ m ?_
      rw [sortByKey_filter_length]
      exact h m
  · intro rows h
    unfold check_treasury_yield_spike
    simp [h]
  · intro rows h
    unfold check_natural_gas_spike
    simp [h]
  · intro rows h
    unfold check_fed_rate_change
    by_cases hE : rows.isEmpty
    · simp [hE]
    · have hs : ¬ (2 ≤ (sortByKey (fun r : RateRow => r.ts) rows).length) := by
        rw [sortByKey_length]; omega
      simp [hE, hs]

/-- Witness for C6 at concrete one-point windows. -/
theorem short_window_no_trigger_witness :
    check_gpu_price_spike [⟨0, "A", 100⟩] = none ∧
    check_treasury_yield_spike [⟨0, some 4⟩] = none ∧
    check_natural_gas_spike [⟨0, 3⟩] = none ∧
    check_fed_rate_change [⟨0, 5⟩] = none :=
  ⟨short_window_no_trigger.1 [⟨0, "A", 100⟩] (fun m => by
      by_cases h : "A" = m <;> simp [h]),
   short_window_no_trigger.2.1 [⟨0, some 4⟩] (by simp),
   short_window_no_trigger.2.2.1 [⟨0, 3⟩] (by simp),
   short_window_no_trigger.2.2.2 [⟨0, 5⟩] (by simp)⟩

/-- C2: `gpu_price_spike` triggers iff some GPU model's latest two chronological
points show a >15% increase from a positive previous price; the payload comes
from the first qualifying model in iteration order and carries the change
rounded to one decimal, the latest price, and period 24; a 20% jump triggers
with change 20.0 while a 10% jump does not. -/
theorem gpu_price_spike_spec :
    (∀ rows : List GPURow,
      ((check_gpu_price_spike rows).isSome = true ↔
        ∃ m ∈ gpuModelOrder rows, GpuQualifies (sortByKey (fun r => r.ts) rows) m)) ∧
    (∀ rows pl, check_gpu_price_spike rows = some pl →
      ∃ m, (gpuModelOrder rows).find? (gpuQualifiesB (sortByKey (fun r => r.ts) rows))
              = some m ∧
        ∃ recent prev rest,
          ((sortByKey (fun r => r.ts) rows).filter (fun r => r.gpu_model = m)).reverse
              = recent :: prev :: rest ∧
          pl = ⟨round1 ((recent.price - prev.price) / prev.price * 100), 24,
                recent.price, m⟩) ∧
    check_gpu_price_spike [⟨0, "A", 100⟩, ⟨1, "A", 120⟩] = some ⟨20, 24, 120, "A"⟩ ∧
    check_gpu_price_spike [⟨0, "A", 100⟩, ⟨1, "A", 110⟩] = none := by
  refine ⟨?_, ?_, ?_, ?_⟩
  · intro rows
    unfold check_gpu_price_spike
    by_cases hE : rows.isEmpty
    · have : rows = [] := by cases rows <;> simp_all
      subst this
      simp [gpuModelOrder, sortByKey, firstOccur, firstOccurAux]
    · simp only [hE, Bool.false_eq_true, if_false, if_neg]
      rw [findSome?_isSome_iff]
      refine exists_congr fun m => and_congr_right fun _ => ?_
      rw [gpuModelSpike_isSome, gpuQualifiesB_iff]
  · intro rows pl h
    unfold check_gpu_price_spike at h
    by_cases hE : rows.isEmpty
    · simp [hE] at h
    · simp only [hE, Bool.false_eq_true, if_false, if_neg] at h
      obtain ⟨m, hfind, hspike⟩ := findSome?_eq_some_find? _ _ _ h
      have hpred : (fun x => (gpuModelSpike (sortByKey (fun r => r.ts) rows) x).isSome)
          = gpuQualifiesB (sortByKey (fun r => r.ts) rows) :=
        funext fun x => gpuModelSpike_isSome _ x
      rw [hpred] at hfind
      obtain ⟨recent, prev, rest, hrev, _, _, hpl⟩ := gpuModelSpike_eq_some _ _ _ hspike
      exact ⟨m, hfind, recent, prev, rest, hrev, hpl⟩
  · norm_num [check_gpu_price_spike, gpuModelOrder, firstOccur, firstOccurAux, sortByKey,
      insertByKey, gpuModelSpike, round1, round_eq, List.findSome?_cons]
  · norm_num [check_gpu_price_spike, gpuModelOrder, firstOccur, firstOccurAux, sortByKey,
      insertByKey, gpuModelSpike, round1, round_eq, List.findSome?_cons]

/-- Witness for C2: the first-qualifying-model payload characterization applied
to the concrete 20%-jump series. -/
theorem gpu_price_spike_spec_witness :
    ∃ m : String,
      (gpuModelOrder [⟨0, "A", 100⟩, ⟨1, "A", 120⟩]).find?
            (gpuQualifiesB (sortByKey (fun r => r.ts) [⟨0, "A", 100⟩, ⟨1, "A", 120⟩]))
            = some m ∧
      ∃ (recent prev : GPURow) (rest : List GPURow),
        ((sortByKey (fun r => r.ts) [⟨0, "A", 100⟩, ⟨1, "A", 120⟩]).filter
            (fun r => r.gpu_model = m)).reverse = recent :: prev :: rest ∧
        (⟨20, 24, 120, "A"⟩ : GpuSpikePayload)
            = ⟨round1 ((recent.price - prev.price) / prev.price * 100), 24,
               recent.price, m⟩ :=
  gpu_price_spike_spec.2.1 [⟨0, "A", 100⟩, ⟨1, "A", 120⟩] ⟨20, 24, 120, "A"⟩
    gpu_price_spike_spec.2.2.1

/-- C7 counterexample: with yields 0.5 then 0.0 the absolute change is 50 bps,
well over the 20 bps threshold, yet `_check_treasury_yield_spike` returns no
trigger because the Python float-truthiness guard rejects the zero yield; so
"triggers iff |latest−prev| × 100 > 20" is false at this input. -/
theorem treasury_yield_spike_counterexample :
    ¬ (((check_treasury_yield_spike [⟨0, some (1/2)⟩, ⟨1, some 0⟩]).isSome = true) ↔
        |((0 : ℚ) - 1/2) * 100| > 20) := by
  intro hiff
  have h2 : |((0 : ℚ) - 1/2) * 100| > 20 := by
    have h : ((0 : ℚ) - 1/2) * 100 = -50 := by norm_num
    rw [h, abs_of_nonpos (by norm_num)]
    norm_num
  have h1 := hiff.mpr h2
  have h0 : check_treasury_yield_spike [⟨0, some (1/2)⟩, ⟨1, some 0⟩] = none := by
    norm_num [check_treasury_yield_spike, sortByKey, insertByKey]
  rw [h0] at h1
  simp at h1

/-- C7 amended: given at least two points, `treasury_yield_spike` triggers iff
the latest two chronological 10-year yields are both non-null and non-zero and
|latest−prev| × 100 > 20 basis points; the payload is the change in basis
points rounded to one decimal together with the current yield. -/
theorem treasury_yield_spike_spec :
    ∀ (rows : List TreasuryRow) (cur prev : TreasuryRow) (rest : List TreasuryRow),
    (sortByKey (fun r => r.ts) rows).reverse = cur :: prev :: rest →
    (((check_treasury_yield_spike rows).isSome = true) ↔
       ∃ c p, cur.yield_10y = some c ∧ prev.yield_10y = some p ∧
         c ≠ 0 ∧ p ≠ 0 ∧ |(c - p) * 100| > 20) ∧
    (∀ pl, check_treasury_yield_spike rows = some pl →
       ∃ c p, cur.yield_10y = some c ∧ prev.yield_10y = some p ∧
         pl = ⟨round1 ((c - p) * 100), c⟩) := by
  intro rows cur prev rest hrev
  have hlen : rows.length = rest.length + 2 := by
    have h1 := sortByKey_length (fun r : TreasuryRow => r.ts) rows
    have h2 := congrArg List.length hrev
    simp only [List.length_reverse, List.length_cons] at h2
    omega
  have hne : rows ≠ [] := by
    intro h
    subst h
    simp at hlen
  have hE : rows.isEmpty = false := by
    cases rows with
    | nil => exact absurd rfl hne
    | cons a l => rfl
  have hL : ¬ (rows.length < 2) := by omega
  have hunfold : check_treasury_yield_spike rows
      = (match cur.yield_10y, prev.yield_10y with
         | some c, some p =>
           if c ≠ 0 ∧ p ≠ 0 then
             if |(c - p) * 100| > 20 then some ⟨round1 ((c - p) * 100), c⟩ else none
           else none
         | _, _ => none) := by
    unfold check_treasury_yield_spike
    rw [if_neg (by simp [hE, hL]), hrev]
  constructor
  · rw [hunfold]
    cases hc : cur.yield_10y with
    | none => simp
    | some c =>
      cases hp : prev.yield_10y with
      | none => simp
      | some p =>
        by_cases h0 : c ≠ 0 ∧ p ≠ 0
        · by_cases habs : |(c - p) * 100| > 20
          · simp [h0, habs]
          · simp [h0, habs]
        · simp only [if_neg h0, Option.isSome_none, Bool.false_eq_true, false_iff]
          rintro ⟨c', p', hc', hp', hc0, hp0, -⟩
          cases hc'
          cases hp'
          exact h0 ⟨hc0, hp0⟩
  · intro pl hpl
    rw [hunfold] at hpl
    cases hc : cur.yield_10y with
    | none => rw [hc] at hpl; simp at hpl
    | some c =>
      cases hp : prev.yield_10y with
      | none => rw [hc, hp] at hpl; simp at hpl
      | some p =>
        rw [hc, hp] at hpl
        dsimp only at hpl
        by_cases h0 : c ≠ 0 ∧ p ≠ 0
        · by_cases habs : |(c - p) * 100| > 20
          · rw [if_pos h0, if_pos habs] at hpl
            exact ⟨c, p, rfl, rfl, (Option.some_injective _ hpl).symm⟩
          · rw [if_pos h0, if_neg habs] at hpl
            simp at hpl
        · rw [if_neg h0] at hpl
          simp at hpl

/-- Witness for the amended C7 at a concrete 100 bps jump. -/
theorem treasury_yield_spike_spec_witness :
    (((check_treasury_yield_spike [⟨0, some 2⟩, ⟨1, some 3⟩]).isSome = true) ↔
       ∃ c p, (⟨1, some 3⟩ : TreasuryRow).yield_10y = some c ∧
         (⟨0, some 2⟩ : TreasuryRow).yield_10y = some p ∧
         c ≠ 0 ∧ p ≠ 0 ∧ |(c - p) * 100| > 20) ∧
    (∀ pl, check_treasury_yield_spike [⟨0, some 2⟩, ⟨1, some 3⟩] = some pl →
       ∃ c p, (⟨1, some 3⟩ : TreasuryRow).yield_10y = some c ∧
         (⟨0, some 2⟩ : TreasuryRow).yield_10y = some p ∧
         pl = ⟨round1 ((c - p) * 100), c⟩) :=
  treasury_yield_spike_spec [⟨0, some 2⟩, ⟨1, some 3⟩] ⟨1, some 3⟩ ⟨0, some 2⟩ []
    (by norm_num [sortByKey, insertByKey])

/-- C8 counterexample: the store reads use ORDER BY timestamp DESC, so on a
two-row table the returned window is in descending timestamp order, not
ascending as the claim states. -/
theorem store_read_ascending_counterexample :
    get_gpu_pricing [⟨0, "A", 1⟩, ⟨1, "A", 2⟩] 1 2 = [⟨1, "A", 2⟩, ⟨0, "A", 1⟩] ∧
    ¬ List.Pairwise (fun a b : GPURow => a.ts ≤ b.ts)
        (get_gpu_pricing [⟨0, "A", 1⟩, ⟨1, "A", 2⟩] 1 2) := by
  have h : get_gpu_pricing [⟨0, "A", 1⟩, ⟨1, "A", 2⟩] 1 2 = [⟨1, "A", 2⟩, ⟨0, "A", 1⟩] := by
    norm_num [get_gpu_pricing, sqlWindowDesc, sortByKey, insertByKey]
  refine ⟨h, ?_⟩
  rw [h]
  intro hp
  have h01 := (List.pairwise_cons.mp hp).1 ⟨0, "A", 1⟩ (by simp)
  norm_num at h01

/-- C8 amended: each windowed store read returns exactly the rows of the
window (timestamp ≥ now − days_back), ordered descending by timestamp. -/
theorem store_read_window_desc :
    ∀ (now : ℚ) (days_back : ℕ),
    (∀ tbl : List GPURow,
      List.Pairwise (fun a b => b.ts ≤ a.ts) (get_gpu_pricing tbl now days_back) ∧
      ∀ r, r ∈ get_gpu_pricing tbl now days_back ↔ r ∈ tbl ∧ now - days_back ≤ r.ts) ∧
    (∀ tbl : List TreasuryRow,
      List.Pairwise (fun a b => b.ts ≤ a.ts) (get_treasury_yields tbl now days_back) ∧
      ∀ r, r ∈ get_treasury_yields tbl now days_back ↔ r ∈ tbl ∧ now - days_back ≤ r.ts) ∧
    (∀ tbl : List EnergyRow,
      List.Pairwise (fun a b => b.ts ≤ a.ts) (get_energy_futures tbl now days_back) ∧
      ∀ r, r ∈ get_energy_futures tbl now days_back ↔ r ∈ tbl ∧ now - days_back ≤ r.ts) ∧
    (∀ tbl : List RateRow,
      List.Pairwise (fun a b => b.ts ≤ a.ts) (get_interest_rates tbl now days_back) ∧
      ∀ r, r ∈ get_interest_rates tbl now days_back ↔ r ∈ tbl ∧ now - days_back ≤ r.ts) := by
  intro now days
  exact ⟨fun tbl => sqlWindowDesc_spec _ _ _ _, fun tbl => sqlWindowDesc_spec _ _ _ _,
    fun tbl => sqlWindowDesc_spec _ _ _ _, fun tbl => sqlWindowDesc_spec _ _ _ _⟩

/-- Witness for the amended C8 at a concrete table. -/
theorem store_read_window_desc_witness :
    List.Pairwise (fun a b : GPURow => b.ts ≤ a.ts)
        (get_gpu_pricing [⟨0, "A", 1⟩, ⟨1, "A", 2⟩] 1 2) ∧
    ((⟨1, "A", 2⟩ : GPURow) ∈ get_gpu_pricing [⟨0, "A", 1⟩, ⟨1, "A", 2⟩] 1 2 ↔
      (⟨1, "A", 2⟩ : GPURow) ∈ [(⟨0, "A", 1⟩ : GPURow), ⟨1, "A", 2⟩] ∧
        (1 : ℚ) - (2 : ℕ) ≤ (1 : ℚ)) :=
  ⟨((store_read_window_desc 1 2).1 [⟨0, "A", 1⟩, ⟨1, "A", 2⟩]).1,
   ((store_read_window_desc 1 2).1 [⟨0, "A", 1⟩, ⟨1, "A", 2⟩]).2 ⟨1, "A", 2⟩⟩

/-! ## Rule engine lemmas and claim theorems -/

theorem checkRule_eq {δ α : Type} (d : δ) (pe : PersistedAlert → Option String)
    (now : ℚ) (r : RuleM δ α) :
    checkRule d pe now r
      = (triggeredOutcome d now r, persistedOutcome d pe r, updatedRule d pe now r) := by
  unfold checkRule triggeredOutcome persistedOutcome updatedRule
  cases hc : r.condition d with
  | error e => rfl
  | ok o =>
    cases o with
    | none => rfl
    | some res =>
      cases hm : r.render res with
      | error e => simp only [hm]
      | ok msg =>
        simp only [hm]
        cases hp : pe ⟨r.name, msg, r.severity, "alert_system"⟩ <;> simp only [hp]

theorem check_all_rules_spec {δ α : Type} (d : δ) (now : ℚ)
    (rules : List (RuleM δ α)) :
    ∀ st : StoreSt,
    (check_all_rules d now rules st).1 = rules.filterMap (triggeredOutcome d now) ∧
    (check_all_rules d now rules st).2.1.persisted
        = st.persisted ++ rules.filterMap (persistedOutcome d st.persistErr) ∧
    (check_all_rules d now rules st).2.1.persistErr = st.persistErr ∧
    (check_all_rules d now rules st).2.2.1
        = rules.map (updatedRule d st.persistErr now) ∧
    (check_all_rules d now rules st).2.2.2 = rules.map (fun r => r.name) := by
  induction rules with
  | nil => intro st; simp [check_all_rules]
  | cons r rs ih =>
    intro st
    simp only [check_all_rules, checkRule_eq]
    cases hpo : persistedOutcome d st.persistErr r with
    | none =>
      obtain ⟨h1, h2, h3, h4, h5⟩ := ih st
      simp only [hpo]
      refine ⟨?_, ?_, h3, ?_, ?_⟩
      · rw [h1, List.filterMap_cons]
        cases triggeredOutcome d now r <;> rfl
      · rw [h2, List.filterMap_cons, hpo]
      · rw [h4, List.map_cons]
      · rw [h5, List.map_cons]
    | some row =>
      obtain ⟨h1, h2, h3, h4, h5⟩ := ih ⟨st.persisted ++ [row], st.persistErr⟩
      simp only [hpo]
      refine ⟨?_, ?_, h3, ?_, ?_⟩
      · rw [h1, List.filterMap_cons]
        cases triggeredOutcome d now r <;> rfl
      · rw [h2, List.filterMap_cons, hpo]
        simp
      · rw [h4, List.map_cons]
      · rw [h5, List.map_cons]

/-- C1: a monitoring cycle evaluates each rule's condition exactly once, in
registration order (the invocation trace equals the registered names); the
returned alerts are exactly the per-rule outcomes, each computed independently
of every other rule and of the store, so one rule's failure cannot suppress
another rule's alert; a raising condition or a raising template render makes
its own rule a non-trigger.  `check_all_rules` is a total function into plain
lists, so no exception leaves the cycle. -/
theorem check_all_rules_independent :
    ∀ (δ α : Type) (rules : List (RuleM δ α)) (d : δ) (st : StoreSt) (now : ℚ),
    (check_all_rules d now rules st).2.2.2 = rules.map (fun r => r.name) ∧
    (check_all_rules d now rules st).1 = rules.filterMap (triggeredOutcome d now) ∧
    (∀ r : RuleM δ α, (∃ e, r.condition d = .error e) →
        triggeredOutcome d now r = none) ∧
    (∀ (r : RuleM δ α) (res : α), r.condition d = .ok (some res) →
        (∃ e, r.render res = .error e) → triggeredOutcome d now r = none) := by
  intro δ α rules d st now
  obtain ⟨h1, -, -, -, h5⟩ := check_all_rules_spec d now rules st
  refine ⟨h5, h1, ?_, ?_⟩
  · rintro r ⟨e, he⟩
    simp only [triggeredOutcome, he]
  · rintro r res hc ⟨e, he⟩
    simp only [triggeredOutcome, hc, he]

/-- Witness for C1: a raising rule followed by a healthy rule; the trace shows
both conditions ran in order, and only the healthy rule's alert is returned. -/
theorem check_all_rules_independent_witness :
    (check_all_rules () 0 [unitFailRule, unitOkRule] emptyStore).2.2.2
        = ["fail_rule", "ok_rule"] ∧
    (check_all_rules () 0 [unitFailRule, unitOkRule] emptyStore).1
        = [⟨"ok_rule", "low", "ok message", 0, ()⟩] ∧
    triggeredOutcome () 0 unitFailRule = none := by
  have h := check_all_rules_independent Unit Unit [unitFailRule, unitOkRule] ()
    emptyStore 0
  refine ⟨?_, ?_, h.2.2.1 unitFailRule ⟨"boom", rfl⟩⟩
  · rw [h.1]; rfl
  · rw [h.2.1]; rfl

/-- C10: alert persistence is not atomic with alert emission.  The returned
alert list is built from per-rule outcomes that ignore `create_alert` entirely,
while the store only gains the rows whose insert succeeded; for a rule whose
condition and render succeed but whose `create_alert` raises, the event is in
the returned list (hence later dispatched), its row is not appended to the
store, and the rule's `last_triggered` is unchanged. -/
theorem alert_persistence_not_atomic :
    ∀ (δ α : Type) (rules : List (RuleM δ α)) (d : δ) (st : StoreSt) (now : ℚ),
    (check_all_rules d now rules st).2.1.persisted
        = st.persisted ++ rules.filterMap (persistedOutcome d st.persistErr) ∧
    (check_all_rules d now rules st).2.2.1
        = rules.map (updatedRule d st.persistErr now) ∧
    (∀ r ∈ rules, ∀ (res : α) (msg : String),
      r.condition d = .ok (some res) → r.render res = .ok msg →
      (∃ e, st.persistErr ⟨r.name, msg, r.severity, "alert_system"⟩ = some e) →
      (⟨r.name, r.severity, msg, now, res⟩ : AlertEv α)
          ∈ (check_all_rules d now rules st).1 ∧
      persistedOutcome d st.persistErr r = none ∧
      updatedRule d st.persistErr now r = r) := by
  intro δ α rules d st now
  obtain ⟨h1, h2, -, h4, -⟩ := check_all_rules_spec d now rules st
  refine ⟨h2, h4, ?_⟩
  rintro r hr res msg hc hm ⟨e, he⟩
  refine ⟨?_, ?_, ?_⟩
  · rw [h1]
    refine List.mem_filterMap.mpr ⟨r, hr, ?_⟩
    simp only [triggeredOutcome, hc, hm]
  · simp only [persistedOutcome, hc, hm, he]
  · simp only [updatedRule, hc, hm, he]

/-- Witness for C10: one rule over a store whose `create_alert` raises; the
event is returned, nothing is persisted, `last_triggered` stays `none`. -/
theorem alert_persistence_not_atomic_witness :
    (⟨"ok_rule", "low", "ok message", 0, ()⟩ : AlertEv Unit)
        ∈ (check_all_rules () 0 [unitOkRule] failingStore).1 ∧
    persistedOutcome () failingStore.persistErr unitOkRule = none ∧
    updatedRule () failingStore.persistErr 0 unitOkRule = unitOkRule := by
  have h := alert_persistence_not_atomic Unit Unit [unitOkRule] () failingStore 0
  exact h.2.2 unitOkRule (by simp) () "ok message" rfl rfl ⟨"db down", rfl⟩

/-! ## Dispatcher lemmas and claim theorem -/

theorem dispatchGo_eq_map {α : Type} (alerts : List α)
    (channels : List (List α → Except String Unit)) :
    dispatchGo alerts channels
      = channels.map (fun c =>
          (alerts, match c alerts with | .error e => some e | .ok _ => none)) := by
  induction channels with
  | nil => rfl
  | cons c cs ih => simp [dispatchGo, ih]

/-- C5: dispatch is a no-op on an empty alert list; otherwise every registered
sink is invoked exactly once, in order, with the same full batch, and a raising
sink (its error is caught and recorded in the call log) does not prevent any
later sink from being invoked.  `send_notifications` is a total function, so
no exception reaches the caller.  The concrete conjunct is the spec's
scenario: a raising sink before a recorder sink, which still observes exactly
one call containing the event. -/
theorem send_notifications_spec :
    (∀ (α : Type) (channels : List (List α → Except String Unit)) (alerts : List α),
      (alerts = [] → send_notifications channels alerts = []) ∧
      (alerts ≠ [] →
        send_notifications channels alerts
          = channels.map (fun c =>
              (alerts, match c alerts with | .error e => some e | .ok _ => none)) ∧
        (send_notifications channels alerts).length = channels.length ∧
        ∀ entry ∈ send_notifications channels alerts, entry.1 = alerts)) ∧
    send_notifications
        [fun _ => .error "boom", fun _ => .ok ()] [(7 : ℕ)]
      = [([7], some "boom"), ([7], none)] := by
  constructor
  · intro α channels alerts
    constructor
    · rintro rfl
      simp [send_notifications]
    · intro hne
      have hE : alerts.isEmpty = false := by
        cases alerts with
        | nil => exact absurd rfl hne
        | cons a l => rfl
      have hmap : send_notifications channels alerts
          = channels.map (fun c =>
              (alerts, match c alerts with | .error e => some e | .ok _ => none)) := by
        unfold send_notifications
        rw [hE]
        simpa using dispatchGo_eq_map alerts channels
      refine ⟨hmap, ?_, ?_⟩
      · rw [hmap, List.length_map]
      · intro entry hentry
        rw [hmap] at hentry
        obtain ⟨c, -, hc⟩ := List.mem_map.mp hentry
        rw [← hc]
  · rfl

/-- Witness for C5, instantiating both hypotheses. -/
theorem send_notifications_spec_witness :
    send_notifications [fun _ : List ℕ => Except.ok ()] ([] : List ℕ) = [] ∧
    (send_notifications [fun _ : List ℕ => Except.ok ()] [3]).length = 1 :=
  ⟨(send_notifications_spec.1 ℕ [fun _ => Except.ok ()] []).1 rfl,
   ((send_notifications_spec.1 ℕ [fun _ => Except.ok ()] [3]).2 (by simp)).2.1⟩

/-! ## Correlation engine lemmas and claim theorems -/

theorem map_fst_swap (ps : List (ℚ × ℚ)) :
    (ps.map Prod.swap).map (fun q => q.1) = ps.map (fun q => q.2) := by
  rw [List.map_map]
  rfl

theorem map_snd_swap (ps : List (ℚ × ℚ)) :
    (ps.map Prod.swap).map (fun q => q.2) = ps.map (fun q => q.1) := by
  rw [List.map_map]
  rfl

theorem sxy_swap (ps : List (ℚ × ℚ)) : sxy (ps.map Prod.swap) = sxy ps := by
  unfold sxy
  rw [map_fst_swap, map_snd_swap, List.map_map]
  refine congrArg List.sum (List.map_congr_left fun p _ => ?_)
  show ((Prod.swap p).1 - _) * ((Prod.swap p).2 - _) = _
  simp only [Prod.fst_swap, Prod.snd_swap]
  ring

theorem sxx_swap (ps : List (ℚ × ℚ)) : sxx (ps.map Prod.swap) = syy ps := by
  unfold sxx syy
  rw [map_fst_swap, List.map_map]
  refine congrArg List.sum (List.map_congr_left fun p _ => ?_)
  show ((Prod.swap p).1 - _) * ((Prod.swap p).1 - _) = _
  simp only [Prod.fst_swap]

theorem syy_swap (ps : List (ℚ × ℚ)) : syy (ps.map Prod.swap) = sxx ps := by
  unfold sxx syy
  rw [map_snd_swap, List.map_map]
  refine congrArg List.sum (List.map_congr_left fun p _ => ?_)
  show ((Prod.swap p).2 - _) * ((Prod.swap p).2 - _) = _
  simp only [Prod.snd_swap]

theorem pearsonR_swap (ps : List (ℚ × ℚ)) : pearsonR (ps.map Prod.swap) = pearsonR ps := by
  unfold pearsonR
  rw [sxy_swap, sxx_swap, syy_swap, mul_comm]

theorem dropna_swap (x y : List (Option ℚ)) :
    dropna y x = (dropna x y).map Prod.swap := by
  unfold dropna
  rw [← List.zip_swap x y, List.filterMap_map, List.map_filterMap]
  refine List.filterMap_congr fun p _ => ?_
  rcases p with ⟨_ | a, _ | b⟩ <;> rfl

theorem pearsonR_dropna_comm (x y : List (Option ℚ)) :
    pearsonR (dropna y x) = pearsonR (dropna x y) := by
  rw [dropna_swap, pearsonR_swap]

/-- C3: with fewer than 3 jointly non-missing pairs the primary correlation is
the sentinel (0, 1); with 3 or more it is exactly what `scipy.stats.pearsonr`
returns on the valid pairs (the Pearson coefficient and two-tailed p-value,
here abstracted as the function argument); the strength thresholds on |r| are
inclusive and significance holds iff p < 0.05. -/
theorem correlation_significance_spec :
    (∀ (pearsonr : List (ℚ × ℚ) → ℚ × ℚ) (x y : List (Option ℚ)),
      (dropna x y).length < 3 →
      calculate_correlation_with_significance pearsonr x y = (0, 1)) ∧
    (∀ (pearsonr : List (ℚ × ℚ) → ℚ × ℚ) (x y : List (Option ℚ)),
      3 ≤ (dropna x y).length →
      calculate_correlation_with_significance pearsonr x y = pearsonr (dropna x y)) ∧
    (∀ r : ℚ, 7/10 ≤ |r| → interpret_correlation_strength |r| = "strong") ∧
    (∀ r : ℚ, 3/10 ≤ |r| → |r| < 7/10 → interpret_correlation_strength |r| = "moderate") ∧
    (∀ r : ℚ, 1/10 ≤ |r| → |r| < 3/10 → interpret_correlation_strength |r| = "weak") ∧
    (∀ r : ℚ, |r| < 1/10 → interpret_correlation_strength |r| = "very_weak") ∧
    interpret_correlation_strength (7/10) = "strong" ∧
    interpret_correlation_strength (6999/10000) = "moderate" ∧
    interpret_correlation_strength (3/10) = "moderate" ∧
    interpret_correlation_strength (999/10000) = "very_weak" ∧
    (∀ p : ℚ, significanceOf p = "significant" ↔ p < 5/100) := by
  refine ⟨?_, ?_, ?_, ?_, ?_, ?_, ?_, ?_, ?_, ?_, ?_⟩
  · intro pearsonr x y h
    unfold calculate_correlation_with_significance
    rw [if_pos h]
  · intro pearsonr x y h
    unfold calculate_correlation_with_significance
    rw [if_neg (by omega)]
  · intro r h
    unfold interpret_correlation_strength
    rw [if_pos h]
  · intro r h1 h2
    unfold interpret_correlation_strength
    rw [if_neg (by linarith), if_pos h1]
  · intro r h1 h2
    unfold interpret_correlation_strength
    rw [if_neg (by linarith), if_neg (by linarith), if_pos h1]
  · intro r h
    unfold interpret_correlation_strength
    rw [if_neg (by linarith), if_neg (by linarith), if_neg (by linarith)]
  · norm_num [interpret_correlation_strength]
  · norm_num [interpret_correlation_strength]
  · norm_num [interpret_correlation_strength]
  · norm_num [interpret_correlation_strength]
  · intro p
    unfold significanceOf
    by_cases h : p < 5/100
    · simp [h]
    · simp [h]

/-- Witness for C3 at concrete inputs. -/
theorem correlation_significance_spec_witness :
    calculate_correlation_with_significance (fun _ => (1, 0))
        [some 1, some 2] [some 1, some 2] = (0, 1) ∧
    calculate_correlation_with_significance (fun _ => (1, 0))
        [some 1, some 2, some 3] [some 1, some 2, some 3] = (1, 0) ∧
    interpret_correlation_strength |(7 : ℚ)/10| = "strong" :=
  ⟨correlation_significance_spec.1 (fun _ => (1, 0)) [some 1, some 2] [some 1, some 2]
      (by simp [dropna, List.filterMap_cons]),
   correlation_significance_spec.2.1 (fun _ => (1, 0)) [some 1, some 2, some 3]
      [some 1, some 2, some 3] (by simp [dropna, List.filterMap_cons]),
   correlation_significance_spec.2.2.1 (7/10) (by
      have h : |(7 : ℚ)/10| = 7/10 := abs_of_nonneg (by norm_num)
      rw [h])⟩

/-- C9: the pairwise correlation output excludes self-pairs (every emitted
entry has distinct column names) and is symmetric: for any two columns with
distinct names both ordered entries are present and carry the same Pearson
coefficient over the jointly non-missing rows, because the coefficient is
invariant under swapping the pair. -/
theorem pairwise_correlations_symmetric :
    (∀ ps : List (ℚ × ℚ), pearsonR (ps.map Prod.swap) = pearsonR ps) ∧
    (∀ x y : List (Option ℚ), pearsonR (dropna y x) = pearsonR (dropna x y)) ∧
    (∀ (cols : List (String × List (Option ℚ))) (n1 n2 : String) (v : ℝ),
        (n1, n2, v) ∈ calculate_correlations cols → n1 ≠ n2) ∧
    (∀ (cols : List (String × List (Option ℚ))) (c1 c2 : String × List (Option ℚ)),
        c1 ∈ cols → c2 ∈ cols → c1.1 ≠ c2.1 →
        (c1.1, c2.1, pearsonR (dropna c1.2 c2.2)) ∈ calculate_correlations cols ∧
        (c2.1, c1.1, pearsonR (dropna c1.2 c2.2)) ∈ calculate_correlations cols) := by
  refine ⟨pearsonR_swap, pearsonR_dropna_comm, ?_, ?_⟩
  · intro cols n1 n2 v hmem
    unfold calculate_correlations at hmem
    by_cases hlen : cols.length < 2
    · rw [if_pos hlen] at hmem
      simp at hmem
    · rw [if_neg hlen] at hmem
      obtain ⟨c1, -, hmem1⟩ := List.mem_flatMap.mp hmem
      obtain ⟨c2, -, hmem2⟩ := List.mem_filterMap.mp hmem1
      by_cases hne : c1.1 ≠ c2.1
      · rw [if_pos hne] at hmem2
        have h := Option.some_injective _ hmem2
        have hn1 : c1.1 = n1 := congrArg Prod.fst h
        have hn2 : c2.1 = n2 := congrArg (fun t => t.2.1) h
        rw [← hn1, ← hn2]
        exact hne
      · rw [if_neg hne] at hmem2
        exact absurd hmem2 (by simp)
  · intro cols c1 c2 h1 h2 hne
    have hlen : ¬ (cols.length < 2) := by
      intro hlt
      match cols, h1, h2 with
      | [], h1, _ => exact absurd h1 (by simp)
      | [a], h1, h2 =>
        have e1 : c1 = a := by simpa using h1
        have e2 : c2 = a := by simpa using h2
        rw [e1, e2] at hne
        exact hne rfl
      | a :: b :: l, _, _ => simp at hlt; omega
    constructor
    · unfold calculate_correlations
      rw [if_neg hlen]
      refine List.mem_flatMap.mpr ⟨c1, h1, ?_⟩
      exact List.mem_filterMap.mpr ⟨c2, h2, by rw [if_pos hne]⟩
    · unfold calculate_correlations
      rw [if_neg hlen]
      refine List.mem_flatMap.mpr ⟨c2, h2, ?_⟩
      refine List.mem_filterMap.mpr ⟨c1, h1, ?_⟩
      rw [if_pos (Ne.symm hne), pearsonR_dropna_comm]

/-- Witness for C9 at a concrete two-column table. -/
theorem pairwise_correlations_symmetric_witness :
    ("a", "b", pearsonR (dropna [some 1, some 2] [some 2, some 4]))
        ∈ calculate_correlations [("a", [some 1, some 2]), ("b", [some 2, some 4])] ∧
    ("b", "a", pearsonR (dropna [some 1, some 2] [some 2, some 4]))
        ∈ calculate_correlations [("a", [some 1, some 2]), ("b", [some 2, some 4])] :=
  pairwise_correlations_symmetric.2.2.2
    [("a", [some 1, some 2]), ("b", [some 2, some 4])]
    ("a", [some 1, some 2]) ("b", [some 2, some 4])
    (by simp) (by simp) (by simp)

/-! ## Unified-series lemmas -/

theorem mem_insertDate (d x : ℤ) (l : List ℤ) :
    x ∈ insertDate d l ↔ x = d ∨ x ∈ l := by
  induction l with
  | nil => simp [insertDate]
  | cons e l ih =>
    by_cases h1 : d < e
    · simp [insertDate, h1]
    · by_cases h2 : d = e
      · subst h2
        simp [insertDate, h1]
      · simp [insertDate, h1, h2, ih]
        tauto

theorem pairwise_insertDate (d : ℤ) (l : List ℤ)
    (h : l.Pairwise (· < ·)) : (insertDate d l).Pairwise (· < ·) := by
  induction l with
  | nil => simp [insertDate]
  | cons e l ih =>
    rcases List.pairwise_cons.mp h with ⟨he, hl⟩
    by_cases h1 : d < e
    · simp only [insertDate, if_pos h1]
      refine List.pairwise_cons.mpr ⟨?_, h⟩
      intro y hy
      rcases List.mem_cons.mp hy with rfl | hy
      · exact h1
      · exact lt_trans h1 (he y hy)
    · by_cases h2 : d = e
      · simp only [insertDate, if_neg h1, if_pos h2]
        exact h
      · simp only [insertDate, if_neg h1, if_neg h2]
        refine List.pairwise_cons.mpr ⟨?_, ih hl⟩
        intro y hy
        rcases (mem_insertDate d y l).mp hy with rfl | hy
        · omega
        · exact he y hy

theorem sortedDates_pairwise (ds : List ℤ) : (sortedDates ds).Pairwise (· < ·) := by
  induction ds with
  | nil => simp [sortedDates]
  | cons d ds ih => exact pairwise_insertDate d (sortedDates ds) ih

theorem mem_sortedDates (ds : List ℤ) (x : ℤ) : x ∈ sortedDates ds ↔ x ∈ ds := by
  induction ds with
  | nil => simp [sortedDates]
  | cons d ds ih =>
    show x ∈ insertDate d (sortedDates ds) ↔ _
    rw [mem_insertDate, ih]
    simp

theorem maxDate_eq_none_iff (l : List ℤ) : maxDate l = none ↔ l = [] := by
  cases l with
  | nil => simp [maxDate]
  | cons e l =>
    simp only [maxDate]
    cases maxDate l <;> simp

theorem maxDate_spec (l : List ℤ) (x : ℤ) (h : maxDate l = some x) :
    x ∈ l ∧ ∀ y ∈ l, y ≤ x := by
  induction l generalizing x with
  | nil => simp [maxDate] at h
  | cons e l ih =>
    simp only [maxDate] at h
    cases hm : maxDate l with
    | none =>
      rw [hm] at h
      have : l = [] := (maxDate_eq_none_iff l).mp hm
      subst this
      simp at h ⊢
      omega
    | some m =>
      rw [hm] at h
      obtain ⟨hmem, hbound⟩ := ih m hm
      have hx : x = max e m := by
        have := Option.some_injective _ h
        omega
      subst hx
      constructor
      · rcases max_choice e m with h' | h' <;> rw [h']
        · exact List.mem_cons_self e l
        · exact List.mem_cons_of_mem e hmem
      · intro y hy
        rcases List.mem_cons.mp hy with rfl | hy
        · exact le_max_left _ _
        · exact le_trans (hbound y hy) (le_max_right _ _)

theorem maxDate_eq_some (l : List ℤ) (x : ℤ) (hx : x ∈ l) (hb : ∀ y ∈ l, y ≤ x) :
    maxDate l = some x := by
  cases h : maxDate l with
  | none =>
    rw [maxDate_eq_none_iff] at h
    subst h
    simp at hx
  | some m =>
    obtain ⟨hmem, hbound⟩ := maxDate_spec l m h
    have h1 : x ≤ m := hbound x hx
    have h2 : m ≤ x := hb m hmem
    rw [le_antisymm h2 h1]

theorem valuesAt_ne_nil_iff (src : List (ℚ × ℚ)) (d : ℤ) :
    ¬ (valuesAt src d).isEmpty = true ↔ d ∈ srcDatesList src := by
  unfold valuesAt srcDatesList
  rw [List.isEmpty_iff, List.map_eq_nil_iff, List.filter_eq_nil_iff]
  simp only [decide_eq_true_eq]
  push_neg
  constructor
  · rintro ⟨r, hr, hp⟩
    exact List.mem_map.mpr ⟨r, hr, hp⟩
  · intro h
    obtain ⟨r, hr, hd⟩ := List.mem_map.mp h
    exact ⟨r, hr, hd⟩

theorem dailyMean_of_mem (src : List (ℚ × ℚ)) (d : ℤ) (h : d ∈ srcDatesList src) :
    dailyMean src d = some (meanAt src d) := by
  unfold dailyMean
  rw [if_neg ((valuesAt_ne_nil_iff src d).mpr h)]

theorem dailyMean_of_not_mem (src : List (ℚ × ℚ)) (d : ℤ) (h : d ∉ srcDatesList src) :
    dailyMean src d = none := by
  unfold dailyMean
  rw [if_pos]
  by_contra hne
  exact h ((valuesAt_ne_nil_iff src d).mp hne)

theorem mem_of_getElem?_some {α : Type} {l : List α} {i : ℕ} {a : α}
    (h : l[i]? = some a) : a ∈ l := by
  obtain ⟨hlt, rfl⟩ := List.getElem?_eq_some_iff.mp h
  exact List.getElem_mem hlt

theorem ffillGo_map_fst (carry : List (Option ℚ)) (t : List (ℤ × List (Option ℚ))) :
    (ffillGo carry t).map Prod.fst = t.map Prod.fst := by
  induction t generalizing carry with
  | nil => rfl
  | cons p rest ih =>
    cases p with
    | mk d row => simp [ffillGo, ih]

theorem le_head_iff_mem_left {P ds' : List ℤ} {d e : ℤ}
    (hsorted : (P ++ d :: ds').Pairwise (· < ·)) (he : e ∈ P ++ d :: ds') :
    e ≤ d ↔ e ∈ P ∨ e = d := by
  obtain ⟨hP, hds, hcross⟩ := List.pairwise_append.mp hsorted
  have hdlt : ∀ b ∈ ds', d < b := (List.pairwise_cons.mp hds).1
  constructor
  · intro hle
    rcases List.mem_append.mp he with hPm | hdm
    · exact Or.inl hPm
    · rcases List.mem_cons.mp hdm with rfl | hmem
      · exact Or.inr rfl
      · exact absurd hle (by have := hdlt e hmem; omega)
  · rintro (hPm | rfl)
    · have := hcross e hPm d (List.mem_cons_self d ds')
      omega
    · exact le_refl _

theorem latestDataDate_eq_of_ctx {src : List (ℚ × ℚ)} {P ds' : List ℤ} {d : ℤ}
    (hsub : ∀ e ∈ srcDatesList src, e ∈ P ++ d :: ds')
    (hsorted : (P ++ d :: ds').Pairwise (· < ·)) :
    latestDataDate src d
      = maxDate ((srcDatesList src).filter (fun e => decide (e ∈ P ∨ e = d))) := by
  unfold latestDataDate
  congr 1
  refine List.filter_congr fun e hee => ?_
  exact decide_eq_decide.mpr (le_head_iff_mem_left hsorted (hsub e hee))

theorem filter_mem_or_eq_of_not_mem {src : List (ℚ × ℚ)} {P : List ℤ} {d : ℤ}
    (hd : d ∉ srcDatesList src) :
    (srcDatesList src).filter (fun e => decide (e ∈ P ∨ e = d))
      = (srcDatesList src).filter (fun e => decide (e ∈ P)) := by
  refine List.filter_congr fun e hee => ?_
  have hne : e ≠ d := fun h => hd (h ▸ hee)
  exact decide_eq_decide.mpr (or_iff_left hne)

theorem filter_mem_append_singleton (dl P : List ℤ) (d : ℤ) :
    dl.filter (fun e => decide (e ∈ P ++ [d]))
      = dl.filter (fun e => decide (e ∈ P ∨ e = d)) := by
  refine List.filter_congr fun e _ => ?_
  exact decide_eq_decide.mpr (by simp)

theorem ffill_row_entry {actives : List (List (ℚ × ℚ))} {carry : List (Option ℚ)}
    {P ds' : List ℤ} {d : ℤ}
    (hsorted : (P ++ d :: ds').Pairwise (· < ·))
    (hsub : ∀ s ∈ actives, ∀ e ∈ srcDatesList s, e ∈ P ++ d :: ds')
    (hcarry : ∀ (i : ℕ) (s : List (ℚ × ℚ)), actives[i]? = some s →
        carry[i]? = some (Option.map (meanAt s)
          (maxDate ((srcDatesList s).filter (fun e => decide (e ∈ P)))))) :
    ∀ (i : ℕ) (s : List (ℚ × ℚ)), actives[i]? = some s →
    (List.zipWith (fun cur c => match cur with | some v => some v | none => c)
        (rawRow actives d) carry)[i]?
      = some (Option.map (meanAt s) (latestDataDate s d)) := by
  intro i s hs
  rw [List.getElem?_zipWith]
  have hraw : (rawRow actives d)[i]? = some (dailyMean s d) := by
    unfold rawRow
    rw [List.getElem?_map, hs]
    rfl
  rw [hraw, hcarry i s hs]
  by_cases hd : d ∈ srcDatesList s
  · rw [dailyMean_of_mem s d hd]
    have hlast : latestDataDate s d = some d := by
      unfold latestDataDate
      refine maxDate_eq_some _ d ?_ ?_
      · exact List.mem_filter.mpr ⟨hd, by simp⟩
      · intro y hy
        have := List.mem_filter.mp hy
        simpa using this.2
    rw [hlast]
    rfl
  · rw [dailyMean_of_not_mem s d hd]
    rw [latestDataDate_eq_of_ctx (hsub s (mem_of_getElem?_some hs)) hsorted,
      filter_mem_or_eq_of_not_mem hd]

theorem ffillGo_spec (actives : List (List (ℚ × ℚ))) :
    ∀ (ds P : List ℤ) (carry : List (Option ℚ)),
    (P ++ ds).Pairwise (· < ·) →
    (∀ s ∈ actives, ∀ e ∈ srcDatesList s, e ∈ P ++ ds) →
    (∀ (i : ℕ) (s : List (ℚ × ℚ)), actives[i]? = some s →
        carry[i]? = some (Option.map (meanAt s)
          (maxDate ((srcDatesList s).filter (fun e => decide (e ∈ P)))))) →
    ∀ (d : ℤ) (row : List (Option ℚ)),
      (d, row) ∈ ffillGo carry (ds.map (fun e => (e, rawRow actives e))) →
    ∀ (i : ℕ) (s : List (ℚ × ℚ)), actives[i]? = some s →
      row[i]? = some (Option.map (meanAt s) (latestDataDate s d)) := by
  intro ds
  induction ds with
  | nil =>
    intro P carry _ _ _ d row hmem
    simp [ffillGo] at hmem
  | cons d0 ds' ih =>
    intro P carry hsorted hsub hcarry d row hmem i s hs
    rw [List.map_cons] at hmem
    simp only [ffillGo] at hmem
    rcases List.mem_cons.mp hmem with heq | htail
    · rw [Prod.mk.injEq] at heq
      obtain ⟨rfl, rfl⟩ := heq
      exact ffill_row_entry hsorted hsub hcarry i s hs
    · refine ih (P ++ [d0])
        (List.zipWith (fun cur c => match cur with | some v => some v | none => c)
          (rawRow actives d0) carry) ?_ ?_ ?_ d row htail i s hs
      · rw [List.append_assoc]
        exact hsorted
      · intro t ht e hee
        rw [List.append_assoc]
        exact hsub t ht e hee
      · intro j t ht
        rw [filter_mem_append_singleton,
          ffill_row_entry hsorted hsub hcarry j t ht,
          latestDataDate_eq_of_ctx (hsub t (mem_of_getElem?_some ht)) hsorted]

/-- C4: the unified series builder.  (i) The result is sorted strictly
ascending by calendar date.  (ii) A date appears in the result iff some source
has a row whose truncated timestamp is that date (outer join; empty sources
contribute nothing).  (iii) Inserting an empty source changes nothing (not an
error).  (iv) In any result row, the column of source `s` holds: the same-day
arithmetic mean of `s` at the most recent date ≤ the row's date at which `s`
has data, and stays missing when there is no such date (forward fill with
leading gaps preserved; no value is taken from the future).  (v) The spec's
concrete scenario: same-day rows (1 and 3 on day 0) average to 2; the series
[5, missing, missing, 8] forward-fills to [5,5,5,8]; the column whose first
datum is on day 2 stays missing on days 0 and 1. -/
theorem prepare_time_series_spec :
    (∀ sources : List (List (ℚ × ℚ)),
        ((prepare_time_series_data sources).map Prod.fst).Pairwise (· < ·)) ∧
    (∀ (sources : List (List (ℚ × ℚ))) (d : ℤ),
        d ∈ (prepare_time_series_data sources).map Prod.fst ↔
          ∃ s ∈ sources, ∃ r ∈ s, dateOf r.1 = d) ∧
    (∀ l1 l2 : List (List (ℚ × ℚ)),
        prepare_time_series_data (l1 ++ [] :: l2)
          = prepare_time_series_data (l1 ++ l2)) ∧
    (∀ (sources : List (List (ℚ × ℚ))) (d : ℤ) (row : List (Option ℚ)),
        (d, row) ∈ prepare_time_series_data sources →
        ∀ (i : ℕ) (s : List (ℚ × ℚ)), (activeSources sources)[i]? = some s →
          row[i]? = some (Option.map (meanAt s) (latestDataDate s d))) ∧
    prepare_time_series_data
        [[(0, 1), (1/2, 3), (1, 2), (2, 3), (3, 4)],
         [(1/4, 5), (7/2, 8)],
         [(2, 9)]]
      = [(0, [some 2, some 5, none]),
         (1, [some 2, some 5, none]),
         (2, [some 3, some 5, some 9]),
         (3, [some 4, some 8, some 9])] := by
  refine ⟨?_, ?_, ?_, ?_, ?_⟩
  · intro sources
    unfold prepare_time_series_data
    rw [ffillGo_map_fst, List.map_map]
    have h : (Prod.fst ∘ fun e => (e, rawRow (activeSources sources) e)) = id := rfl
    rw [h, List.map_id]
    exact sortedDates_pairwise _
  · intro sources d
    unfold prepare_time_series_data
    rw [ffillGo_map_fst, List.map_map]
    have h : (Prod.fst ∘ fun e => (e, rawRow (activeSources sources) e)) = id := rfl
    rw [h, List.map_id]
    unfold unifiedDates
    rw [mem_sortedDates, List.mem_flatMap]
    constructor
    · rintro ⟨s, hs, hd⟩
      have hs' := List.mem_filter.mp hs
      unfold srcDatesList at hd
      obtain ⟨r, hr, hrd⟩ := List.mem_map.mp hd
      exact ⟨s, hs'.1, r, hr, hrd⟩
    · rintro ⟨s, hs, r, hr, hrd⟩
      have hne : s.isEmpty = false := by
        cases s with
        | nil => simp at hr
        | cons a l => rfl
      refine ⟨s, List.mem_filter.mpr ⟨hs, by simp [hne]⟩, ?_⟩
      unfold srcDatesList
      exact List.mem_map.mpr ⟨r, hr, hrd⟩
  · intro l1 l2
    have hact : activeSources (l1 ++ [] :: l2) = activeSources (l1 ++ l2) := by
      simp [activeSources, List.filter_append, List.filter_cons]
    unfold prepare_time_series_data unifiedDates
    rw [hact]
  · intro sources d row hmem i s hs
    refine ffillGo_spec (activeSources sources) (unifiedDates sources) [] _
      ?_ ?_ ?_ d row hmem i s hs
    · rw [List.nil_append]
      exact sortedDates_pairwise _
    · intro t ht e hee
      rw [List.nil_append]
      unfold unifiedDates
      rw [mem_sortedDates]
      exact List.mem_flatMap.mpr ⟨t, ht, hee⟩
    · intro j t ht
      rw [List.getElem?_map, ht]
      have hfil : (srcDatesList t).filter (fun e => decide (e ∈ ([] : List ℤ))) = [] :=
        List.filter_eq_nil_iff.mpr (fun a _ => by simp)
      rw [hfil]
      rfl
  · have hact : activeSources
        [[((0 : ℚ), (1 : ℚ)), (1/2, 3), (1, 2), (2, 3), (3, 4)],
         [(1/4, 5), (7/2, 8)], [(2, 9)]]
      = [[((0 : ℚ), (1 : ℚ)), (1/2, 3), (1, 2), (2, 3), (3, 4)],
         [(1/4, 5), (7/2, 8)], [(2, 9)]] := rfl
    norm_num [prepare_time_series_data, unifiedDates, hact, sortedDates,
      insertDate, srcDatesList, dateOf, rawRow, dailyMean, valuesAt, meanAt, listMean,
      ffillGo, List.filter_cons, List.flatMap, List.cons_ne_nil]

/-- Witness for C4: the forward-filled value of the gapped column on the last
day of the concrete scenario comes from its most recent data date. -/
theorem prepare_time_series_spec_witness :
    ([some (4 : ℚ), some 8, some 9] : List (Option ℚ))[1]?
      = some (Option.map (meanAt [((1 : ℚ)/4, (5 : ℚ)), (7/2, 8)])
          (latestDataDate [((1 : ℚ)/4, (5 : ℚ)), (7/2, 8)] 3)) :=
  prepare_time_series_spec.2.2.2.1
    [[(0, 1), (1/2, 3), (1, 2), (2, 3), (3, 4)], [(1/4, 5), (7/2, 8)], [(2, 9)]]
    3 [some 4, some 8, some 9]
    (by rw [prepare_time_series_spec.2.2.2.2]; simp)
    1 [(1/4, 5), (7/2, 8)]
    (by rfl)

end DataCrawler
